import Mathlib

/-!
# Verification of `shannon-ios` utility scripts

Shallow embedding of the two Python scripts of the repository:

* `Scripts/fix_malformed_swift.py` — a regex-based text repair tool
  (`fix_malformed_code`, `process_file`, `main`), embedded together with a
  small matcher covering exactly the regex features the script uses
  (`\b` word boundaries, literal text, `\s+` whitespace runs) and the
  left-to-right non-overlapping substitution discipline of `re.sub`.
* `test_backend.py` — a connectivity probe issuing two HTTP GET requests
  (`test_backend`), embedded over an explicit model of request outcomes.

File I/O is modelled by a map from paths to optional contents, and the
possible exceptions of each I/O operation by explicit behaviour flags.
-/

namespace Shannon

/-! ## Character classes (ASCII fragment of Python `\w` / `\s`) -/

/-- Python word character (`\w`), ASCII fragment: letters, digits, underscore. -/
def isWordChar (c : Char) : Bool :=
  c.isAlpha || c.isDigit || c = '_'

/-- Python whitespace (`\s`), ASCII fragment: space, tab, newline, CR, FF, VT. -/
def isPySpace (c : Char) : Bool :=
  c = ' ' || c = '\t' || c = '\n' || c = '\r' || c = '\x0b' || c = '\x0c'

/-! ## The regex fragment used by the script

Every pattern in `fix_malformed_swift.py` is a sequence of word-boundary
assertions (`\b`), literals, and `\s+` runs.  Since in every pattern a `\s+`
is immediately followed by a literal starting with a non-whitespace
character, greedy maximal munch for `\s+` coincides with the backtracking
semantics of Python's `re`. -/

inductive RElem where
  | wb : RElem
  | lit : List Char → RElem
  | ws : RElem
deriving DecidableEq

/-- Number of leading Python-whitespace characters. -/
def wsRun : List Char → Nat
  | [] => 0
  | c :: cs => if isPySpace c then wsRun cs + 1 else 0

/-- Strip a literal from the front of the text; `none` if it does not match. -/
def stripLit : List Char → List Char → Option (List Char)
  | [], s => some s
  | _ :: _, [] => none
  | p :: ps, c :: cs => if c = p then stripLit ps cs else none

/-- Last character of the text consumed so far (`prev`), updated by a literal. -/
def litLast (l : List Char) (prev : Option Char) : Option Char :=
  match l.getLast? with
  | some c => some c
  | none => prev

/-- Word-boundary test between the previously consumed character and the
current head of the text, as in Python `\b`. -/
def atBoundary (prev : Option Char) (s : List Char) : Bool :=
  let lw := match prev with | none => false | some c => isWordChar c
  let rw := match s with | [] => false | c :: _ => isWordChar c
  lw != rw

/-- Match a pattern at the current position.  `prev` is the character just
before the position (for `\b`).  On success, returns the character just
before the remainder together with the remainder of the text. -/
def matchElems : List RElem → Option Char → List Char → Option (Option Char × List Char)
  | [], prev, s => some (prev, s)
  | .wb :: es, prev, s =>
      if atBoundary prev s then matchElems es prev s else none
  | .lit l :: es, prev, s =>
      match stripLit l s with
      | some rest => matchElems es (litLast l prev) rest
      | none => none
  | .ws :: es, _, s =>
      match s with
      | [] => none
      | c :: cs =>
          if isPySpace c then
            let n := wsRun (c :: cs)
            matchElems es ((List.take n (c :: cs)).getLast? ) (List.drop n (c :: cs))
          else none

/-- One pass of `re.sub`: scan left to right, replace each non-overlapping
match, and continue after the matched text of the *original* string (Python
does not rescan replacement text within one `sub` call).  An empty match
emits the replacement and advances one character, as in Python 3.7+.
`fuel` bounds the recursion; `s.length + 1` always suffices. -/
def subGo (p : List RElem) (r : List Char) : Nat → Option Char → List Char → List Char
  | 0, _, s => s
  | fuel + 1, prev, s =>
      match matchElems p prev s with
      | some (prev', rest) =>
          if rest.length = s.length then
            match s with
            | [] => r
            | c :: cs => r ++ c :: subGo p r fuel (some c) cs
          else
            r ++ subGo p r fuel prev' rest
      | none =>
          match s with
          | [] => []
          | c :: cs => c :: subGo p r fuel (some c) cs

/-- `re.sub(p, r, s)` over lists of characters. -/
def reSub (p : List RElem) (r : List Char) (s : List Char) : List Char :=
  subGo p r (s.length + 1) none s

/-! ## The pattern table of `fix_malformed_code` -/

/-- Generic pattern `Xpublic\s+tail`. -/
def gpat (a b : String) : List RElem :=
  [.lit a.toList, .ws, .lit b.toList]

/-- Keyword pattern `\bkw\s+Xpublic\s+tail`. -/
def kpat (kw a b : String) : List RElem :=
  [.wb, .lit kw.toList, .ws, .lit a.toList, .ws, .lit b.toList]

/-- Keyword pattern with trailing boundary `\bkw\s+Xpublic\s+tail\b`. -/
def kpatB (kw a b : String) : List RElem :=
  kpat kw a b ++ [.wb]

/-- The ordered replacement table of `fix_malformed_code`, exactly as in
`Scripts/fix_malformed_swift.py`. -/
def replacements : List (List RElem × String) :=
  [ (kpat "func" "cpublic" "reate", "public func create"),
    (kpat "func" "epublic" "dit", "public func edit"),
    (kpat "func" "spublic" "ave", "public func save"),
    (kpat "func" "dpublic" "elete", "public func delete"),
    (kpat "func" "spublic" "et", "public func set"),
    (kpat "func" "dpublic" "uplicate", "public func duplicate"),
    (kpat "func" "opublic" "pen", "public func open"),
    (kpat "func" "tpublic" "est", "public func test"),
    (kpat "func" "cpublic" "onnect", "public func connect"),
    (kpat "func" "dpublic" "isconnect", "public func disconnect"),
    (kpat "func" "apublic" "dd", "public func add"),
    (kpat "func" "rpublic" "emove", "public func remove"),
    (kpat "func" "spublic" "earch", "public func search"),
    (kpat "func" "cpublic" "lear", "public func clear"),
    (kpat "var" "cpublic" "ategorized", "public var categorized"),
    (kpat "var" "fpublic" "iltered", "public var filtered"),
    (kpat "var" "hpublic" "as", "public var has"),
    (kpat "var" "cpublic" "an", "public var can"),
    (kpatB "let" "ppublic" "roject", "let project"),
    (kpatB "let" "cpublic" "onfig", "let config"),
    (kpatB "let" "spublic" "uccess", "let success"),
    (kpatB "let" "dpublic" "uplicated", "let duplicated"),
    (kpat "let" "ipublic" "mpact", "let impact"),
    (gpat "cpublic" "reate", "create"),
    (gpat "epublic" "dit", "edit"),
    (gpat "spublic" "ave", "save"),
    (gpat "dpublic" "elete", "delete"),
    (gpat "spublic" "et", "set"),
    (gpat "dpublic" "uplicate", "duplicate"),
    (gpat "opublic" "pen", "open"),
    (gpat "tpublic" "est", "test"),
    (gpat "cpublic" "onnect", "connect"),
    (gpat "dpublic" "isconnect", "disconnect"),
    (gpat "apublic" "dd", "add"),
    (gpat "rpublic" "emove", "remove"),
    (gpat "spublic" "earch", "search"),
    (gpat "cpublic" "lear", "clear"),
    (gpat "cpublic" "ategorized", "categorized"),
    (gpat "fpublic" "iltered", "filtered"),
    (gpat "hpublic" "as", "has"),
    (gpat "cpublic" "an", "can"),
    (gpat "ppublic" "roject", "project"),
    (gpat "cpublic" "onfig", "config"),
    (gpat "spublic" "uccess", "success"),
    (gpat "dpublic" "uplicated", "duplicated"),
    (gpat "ipublic" "mpact", "impact") ]

/-- `fix_malformed_code(content)`: apply every substitution of the table, in
order, to the text. -/
def fix_malformed_code (content : String) : String :=
  String.mk (replacements.foldl (fun acc pr => reSub pr.1 pr.2.toList acc) content.toList)

/-! ## Substring containment (Python's `in` on strings) -/

/-- `needle` is a prefix of `s`. -/
def hasPfx : List Char → List Char → Bool
  | [], _ => true
  | _ :: _, [] => false
  | p :: ps, c :: cs => p = c && hasPfx ps cs

/-- `needle` occurs somewhere in the text. -/
def occursIn (needle : List Char) : List Char → Bool
  | [] => needle.isEmpty
  | c :: cs => hasPfx needle (c :: cs) || occursIn needle cs

/-- Python `pat in hay` on strings. -/
def strContains (hay pat : String) : Bool :=
  occursIn pat.toList hay.toList

/-- The corruption marker substrings checked by `main`'s verification pass. -/
def markers : List String :=
  ["cpublic ", "fpublic ", "hpublic ", "ppublic ",
   "dpublic ", "epublic ", "spublic ", "opublic ",
   "tpublic ", "apublic ", "rpublic ", "ipublic "]

/-! ## Matching predicate for the identity / idempotence lemmas -/

/-- The pattern matches at the current position or at any later position
(including the end-of-text position), threading the preceding character. -/
def hasMatchFrom (p : List RElem) : Option Char → List Char → Bool
  | prev, [] => (matchElems p prev []).isSome
  | prev, c :: cs => (matchElems p prev (c :: cs)).isSome || hasMatchFrom p (some c) cs

/-- The pattern has a match somewhere in the string. -/
def patMatches (p : List RElem) (s : String) : Bool :=
  hasMatchFrom p none s.toList

/-- Some pattern of the replacement table has a match in the string. -/
def anyPatternMatch (s : String) : Bool :=
  replacements.any fun pr => patMatches pr.1 s

/-! ## File-system model for `process_file` and `main` (Script A)

A file system maps paths to optional contents.  The exceptions each I/O
operation of `process_file` may raise are modelled by explicit flags; a
failing write leaves behind `partialContent` (a partial write). -/

def FS := String → Option String

/-- Overwrite one path of the file system. -/
def setFile (fs : FS) (p : String) (v : Option String) : FS :=
  fun q => if q = p then v else fs q

/-- The backup path `f"{filepath}.bak"`. -/
def bakPath (p : String) : String := p ++ ".bak"

/-- Which I/O operations on one file raise.  `readFails` models a read that
raises (e.g. content that does not decode as UTF-8, or a permission error);
it applies to every read of that file. -/
structure FileBehavior where
  readFails : Bool
  backupWriteFails : Bool
  writeFails : Bool
  removeFails : Bool
  partialContent : String
deriving DecidableEq

/-- The error line printed by `process_file`'s exception handler (the
rendering of the exception object itself is abstracted). -/
def procErrLine (p : String) : String := s!"✗ Error processing {p}: error"

/-- `len([1 for a, b in zip(original.split('\n'), modified.split('\n')) if a != b])` -/
def countChangedLines (a b : String) : Nat :=
  ((a.splitOn "\n").zip (b.splitOn "\n")).countP fun ab => ab.1 != ab.2

/-- The success line printed by `process_file` after the fixed write. -/
def fixedLine (p : String) (n : Nat) : String := s!"✓ Fixed {p} ({n} lines changed)"

structure ProcResult where
  fs : FS
  ret : Bool
  out : List String

/-- `process_file(filepath)`: read, transform, and (when changed) back up,
overwrite, report, and drop the backup; every exception is caught by the
surrounding handler, which prints an error line and returns `False`. -/
def process_file (fs : FS) (p : String) (b : FileBehavior) : ProcResult :=
  match fs p with
  | none => ⟨fs, false, [procErrLine p]⟩
  | some content =>
    if b.readFails then ⟨fs, false, [procErrLine p]⟩
    else
      let modified := fix_malformed_code content
      if modified = content then ⟨fs, false, []⟩
      else if b.backupWriteFails then
        ⟨setFile fs (bakPath p) (some b.partialContent), false, [procErrLine p]⟩
      else
        let fs1 := setFile fs (bakPath p) (some content)
        if b.writeFails then
          ⟨setFile fs1 p (some b.partialContent), false, [procErrLine p]⟩
        else
          let fs2 := setFile fs1 p (some modified)
          if b.removeFails then
            ⟨fs2, false, [fixedLine p (countChangedLines content modified), procErrLine p]⟩
          else
            ⟨setFile fs2 (bakPath p) none, true,
              [fixedLine p (countChangedLines content modified)]⟩

structure LoopResult where
  fs : FS
  fixedCount : Nat
  out : List String
  trace : List (String × Bool)

/-- `main`'s processing loop over the globbed files, also recording the
trace of (file, result) pairs actually processed. -/
def runFiles (fs : FS) : List (String × FileBehavior) → LoopResult
  | [] => ⟨fs, 0, [], []⟩
  | (p, b) :: rest =>
      let r := process_file fs p b
      let lr := runFiles r.fs rest
      ⟨lr.fs, (if r.ret then 1 else 0) + lr.fixedCount, r.out ++ lr.out, (p, r.ret) :: lr.trace⟩

/-- `main`'s verification pass: re-read every file (outside any `try`, so a
failing read propagates — modelled as `none`) and collect, in order, the
files still containing a corruption marker. -/
def rescan (fs : FS) : List (String × FileBehavior) → Option (List String)
  | [] => some []
  | (p, b) :: rest =>
    match fs p with
    | none => none
    | some content =>
      if b.readFails then none
      else
        match rescan fs rest with
        | none => none
        | some l =>
            some (if markers.any (fun m => strContains content m) then p :: l else l)

/-- The state `main` runs against: whether the fixed relative directory
`Sources` exists, the globbed `**/*.swift` files in order, and the file
system. -/
structure World where
  sourcesDirExists : Bool
  files : List (String × FileBehavior)
  fs : FS

/-- Script A's `main`: exit code and printed lines.  A missing `Sources`
directory exits with code 1; an exception escaping `main` (a failing read
in the verification pass) terminates the process with the interpreter's
exit code 1; otherwise `main` falls through and the process exits 0. -/
def scriptA_main (w : World) : Nat × List String :=
  if w.sourcesDirExists = false then
    (1, ["Error: Sources directory not found"])
  else
    let lr := runFiles w.fs w.files
    let head := s!"Scanning {w.files.length} Swift files for malformed code..."
    let mid := s!"\n✅ Fixed {lr.fixedCount} files"
    match rescan lr.fs w.files with
    | none => (1, head :: lr.out ++ [mid])
    | some remaining =>
      if remaining.isEmpty then
        (0, head :: lr.out ++ [mid, "✨ All malformed patterns fixed!"])
      else
        (0, head :: lr.out ++ [mid, s!"\n⚠️  {remaining.length} files may still have issues:"]
              ++ (remaining.take 5).map fun f => s!"  - {f}")

/-! ## Model of `test_backend.py` (Script B)

Each of the two GET requests either completes with a status code and a
body whose `.json()` either parses (rendered as a string) or raises, or
raises a `ConnectionError`, or raises some other exception. -/

inductive GetOutcome where
  | ok (status : Nat) (json : Option String)
  | connError
  | exn (msg : String)
deriving DecidableEq

/-- The behaviour of the backend for the two endpoints probed. -/
structure Backend where
  health : GetOutcome
  api : GetOutcome
deriving DecidableEq

/-- Result of a run of `test_backend`: the returned boolean, the printed
lines, and the endpoints actually requested, in order. -/
structure RunResult where
  success : Bool
  output : List String
  requested : List String
deriving DecidableEq

def connMsg1 : String := "❌ Cannot connect to backend - is it running?"
def connMsg2 : String := "Start the backend with: cd backend && python -m uvicorn main:app --reload"

/-- The generic handler's line `f"❌ Error: {e}"`. -/
def errLine (m : String) : String := s!"❌ Error: {m}"

/-- Abstract rendering of the exception raised by a failing `.json()`. -/
def jsonErrMsg : String := "invalid JSON"

/-- `test_backend()`: probe `/health`, then `/api/v1/`, mirroring the
control flow of `test_backend.py` line by line. -/
def test_backend (b : Backend) : RunResult :=
  let pre := ["Testing backend at http://localhost:8000..."]
  match b.health with
  | .connError => ⟨false, pre ++ [connMsg1, connMsg2], ["/health"]⟩
  | .exn m => ⟨false, pre ++ [errLine m], ["/health"]⟩
  | .ok s j =>
    let o1 := pre ++ [s!"Health check: {s}"]
    if s = 200 then
      match j with
      | none => ⟨false, o1 ++ ["✅ Backend is healthy", errLine jsonErrMsg], ["/health"]⟩
      | some r =>
        let o2 := o1 ++ ["✅ Backend is healthy", s!"Response: {r}"]
        match b.api with
        | .connError => ⟨false, o2 ++ [connMsg1, connMsg2], ["/health", "/api/v1/"]⟩
        | .exn m => ⟨false, o2 ++ [errLine m], ["/health", "/api/v1/"]⟩
        | .ok s2 j2 =>
          let o3 := o2 ++ [s!"\nAPI info check: {s2}"]
          if s2 = 200 then
            match j2 with
            | none =>
                ⟨false, o3 ++ ["✅ API is accessible", errLine jsonErrMsg],
                  ["/health", "/api/v1/"]⟩
            | some r2 =>
                ⟨true, o3 ++ ["✅ API is accessible", s!"Response: {r2}"],
                  ["/health", "/api/v1/"]⟩
          else
            ⟨true, o3 ++ [s!"❌ API returned status {s2}"], ["/health", "/api/v1/"]⟩
    else
      ⟨false, o1 ++ [s!"❌ Backend returned status {s}"], ["/health"]⟩

/-- `sys.exit(0 if success else 1)` in the `__main__` guard. -/
def scriptB_exit (b : Backend) : Nat :=
  if (test_backend b).success then 0 else 1

/-! ## Derived predicates and concrete instances used by the theorems -/

/-- The condition under which the `try` body of `process_file` raises. -/
def procRaises (fs : FS) (p : String) (b : FileBehavior) : Bool :=
  match fs p with
  | none => true
  | some content =>
    b.readFails ||
      (fix_malformed_code content != content &&
        (b.backupWriteFails || b.writeFails || b.removeFails))

/-- The known corrupted fragments of the generic patterns with their fixes. -/
def fragTable : List (String × String) :=
  [ ("cpublic reate", "create"), ("epublic dit", "edit"), ("spublic ave", "save"),
    ("dpublic elete", "delete"), ("spublic et", "set"), ("dpublic uplicate", "duplicate"),
    ("opublic pen", "open"), ("tpublic est", "test"), ("cpublic onnect", "connect"),
    ("dpublic isconnect", "disconnect"), ("apublic dd", "add"), ("rpublic emove", "remove"),
    ("spublic earch", "search"), ("cpublic lear", "clear"),
    ("cpublic ategorized", "categorized"), ("fpublic iltered", "filtered"),
    ("hpublic as", "has"), ("cpublic an", "can"), ("ppublic roject", "project"),
    ("cpublic onfig", "config"), ("spublic uccess", "success"),
    ("dpublic uplicated", "duplicated"), ("ipublic mpact", "impact") ]

/-- The known corrupted fragments of the keyword patterns with their fixes. -/
def kwTable : List (String × String) :=
  [ ("func cpublic reate", "public func create"), ("func epublic dit", "public func edit"),
    ("func spublic ave", "public func save"), ("func dpublic elete", "public func delete"),
    ("func spublic et", "public func set"), ("func dpublic uplicate", "public func duplicate"),
    ("func opublic pen", "public func open"), ("func tpublic est", "public func test"),
    ("func cpublic onnect", "public func connect"),
    ("func dpublic isconnect", "public func disconnect"),
    ("func apublic dd", "public func add"), ("func rpublic emove", "public func remove"),
    ("func spublic earch", "public func search"), ("func cpublic lear", "public func clear"),
    ("var cpublic ategorized", "public var categorized"),
    ("var fpublic iltered", "public var filtered"),
    ("var hpublic as", "public var has"), ("var cpublic an", "public var can"),
    ("let ppublic roject", "let project"), ("let cpublic onfig", "let config"),
    ("let spublic uccess", "let success"), ("let dpublic uplicated", "let duplicated"),
    ("let ipublic mpact", "let impact") ]

/-- A behaviour with no I/O failures. -/
def okBehavior : FileBehavior := ⟨false, false, false, false, ""⟩

/-- World with an existing `Sources` directory and one file whose reads
raise (e.g. its bytes do not decode as UTF-8). -/
def wBadC9 : World :=
  ⟨true, [("Sources/A.swift", ⟨true, false, false, false, ""⟩)],
    fun q => if q = "Sources/A.swift" then some "x" else none⟩

/-- World with an existing `Sources` directory and one well-behaved file. -/
def wGoodC9 : World :=
  ⟨true, [("Sources/A.swift", okBehavior)],
    fun q => if q = "Sources/A.swift" then some "func cpublic reate" else none⟩

/-- A file system holding one corrupted file, for the `process_file` witnesses. -/
def fsOneBad : FS :=
  fun q => if q = "Sources/B.swift" then some "cpublic reate" else none

/-- A behaviour whose overwrite of the fixed content raises mid-write. -/
def writeFailBehavior : FileBehavior := ⟨false, false, true, false, "PART"⟩

/-- A file system holding one clean file. -/
def fsOneClean : FS :=
  fun q => if q = "Sources/C.swift" then some "hello world" else none

end Shannon

/-! # Helper lemmas -/

namespace Shannon

set_option maxRecDepth 100000

/-- A substitution pass over text in which the pattern matches nowhere is
the identity, for any fuel. -/
theorem subGo_id (p : List RElem) (r : List Char) :
    ∀ (s : List Char) (prev : Option Char) (fuel : Nat),
      hasMatchFrom p prev s = false → subGo p r fuel prev s = s := by
  intro s
  induction s with
  | nil =>
      intro prev fuel h
      cases fuel with
      | zero => rfl
      | succ n =>
          cases hm : matchElems p prev [] with
          | none => simp [subGo, hm]
          | some v => simp [hasMatchFrom, hm] at h
  | cons c cs ih =>
      intro prev fuel h
      simp [hasMatchFrom] at h
      obtain ⟨h1, h2⟩ := h
      cases fuel with
      | zero => rfl
      | succ n =>
          cases hm : matchElems p prev (c :: cs) with
          | none =>
              simp only [subGo, hm]
              exact congrArg (c :: ·) (ih (some c) n h2)
          | some v => simp [hm] at h1

/-- `re.sub` with a pattern that matches nowhere is the identity. -/
theorem reSub_id (p : List RElem) (r : List Char) (s : List Char)
    (h : hasMatchFrom p none s = false) : reSub p r s = s :=
  subGo_id p r s none (s.length + 1) h

theorem strMk_toList (s : String) : String.mk s.toList = s := rfl

/-- On input where none of the table's patterns matches,
`fix_malformed_code` is the identity. -/
theorem fix_id_of_clean (s : String) (h : anyPatternMatch s = false) :
    fix_malformed_code s = s := by
  have hall : ∀ pr ∈ replacements, hasMatchFrom pr.1 none s.toList = false := by
    intro pr hpr
    have := List.any_eq_false.mp h pr hpr
    simpa [patMatches] using this
  have key : ∀ l : List (List RElem × String),
      (∀ pr ∈ l, hasMatchFrom pr.1 none s.toList = false) →
      l.foldl (fun acc pr => reSub pr.1 pr.2.toList acc) s.toList = s.toList := by
    intro l
    induction l with
    | nil => intro _; rfl
    | cons pr rest ih =>
        intro hl
        have h1 : reSub pr.1 pr.2.toList s.toList = s.toList :=
          reSub_id pr.1 pr.2.toList s.toList (hl pr (List.mem_cons_self pr rest))
        simp only [List.foldl_cons, h1]
        exact ih fun q hq => hl q (List.mem_cons_of_mem pr hq)
  unfold fix_malformed_code
  rw [key replacements hall]
  rfl

/-- A path is never its own backup path. -/
theorem bakPath_ne (p : String) : bakPath p ≠ p := by
  intro h
  have hl := congrArg String.length h
  rw [bakPath, String.length_append] at hl
  have h4 : (".bak" : String).length = 4 := rfl
  omega

/-- `process_file` never makes a present file absent, other than the
backup file of the processed path. -/
theorem proc_keeps (fs : FS) (p : String) (b : FileBehavior) (x : String)
    (hx : (fs x).isSome = true) (hxb : x ≠ bakPath p) :
    ((process_file fs p b).fs x).isSome = true := by
  cases hm : fs p with
  | none => simp [process_file, hm, hx]
  | some content =>
      obtain ⟨rf, bf, wf, rmf, pc⟩ := b
      cases rf <;> cases bf <;> cases wf <;> cases rmf <;>
        by_cases hid : fix_malformed_code content = content <;>
        by_cases hxp : x = p <;>
        simp_all [process_file, hm, setFile, hxb]

/-- The processing loop never makes a present file absent, provided the
file is not the backup path of any processed file. -/
theorem runFiles_keeps :
    ∀ (files : List (String × FileBehavior)) (fs : FS) (x : String),
      (fs x).isSome = true → (∀ qb ∈ files, x ≠ bakPath qb.1) →
      ((runFiles fs files).fs x).isSome = true := by
  intro files
  induction files with
  | nil => intro fs x hx _; simpa [runFiles] using hx
  | cons pb rest ih =>
      intro fs x hx hb
      obtain ⟨p, b⟩ := pb
      simp only [runFiles]
      exact ih (process_file fs p b).fs x
        (proc_keeps fs p b x hx (hb ⟨p, b⟩ (List.mem_cons_self _ _)))
        fun qb hq => hb qb (List.mem_cons_of_mem _ hq)

/-- The verification pass completes (raises no exception) when every listed
file is present and readable. -/
theorem rescan_some :
    ∀ (files : List (String × FileBehavior)) (fs : FS),
      (∀ pb ∈ files, ((fs pb.1).isSome = true ∧ pb.2.readFails = false)) →
      (rescan fs files).isSome = true := by
  intro files
  induction files with
  | nil => intro fs _; simp [rescan]
  | cons pb rest ih =>
      intro fs h
      obtain ⟨p, b⟩ := pb
      obtain ⟨hp, hr⟩ := h ⟨p, b⟩ (List.mem_cons_self _ _)
      have hp' : (fs p).isSome = true := hp
      have hr' : b.readFails = false := hr
      have hrest := ih fs fun qb hq => h qb (List.mem_cons_of_mem _ hq)
      cases hm : fs p with
      | none => rw [hm] at hp'; simp at hp'
      | some content =>
          cases hrs : rescan fs rest with
          | none => rw [hrs] at hrest; simp at hrest
          | some l => simp [rescan, hm, hr', hrs]

end Shannon

/-! # Claim theorems -/

namespace Shannon

set_option maxRecDepth 1000000

/-- C1: the claim says `test_backend` returns success only if both the
`/health` and the `/api/v1/` responses are 2xx.  The code contradicts it
(and its own printed `❌ API returned status ...` failure diagnostic): with
`/health` returning 200 and `/api/v1/` returning 500, `test_backend` still
returns `True` and the process exits 0, because the non-200 branch of the
second check does not return `False`. -/
theorem C1_api_status_ignored :
    (test_backend ⟨.ok 200 (some "{}"), .ok 500 (some "{}")⟩).success = true ∧
    "❌ API returned status 500"
      ∈ (test_backend ⟨.ok 200 (some "{}"), .ok 500 (some "{}")⟩).output ∧
    scriptB_exit ⟨.ok 200 (some "{}"), .ok 500 (some "{}")⟩ = 0 := by
  refine ⟨rfl, by decide, rfl⟩

/-- C2: when the GET to `/health` completes with a status outside the 2xx
range, `test_backend` returns `False` and the request to `/api/v1/` is
never issued. -/
theorem C2_non2xx_health_short_circuits
    (s : Nat) (j : Option String) (api : GetOutcome)
    (h : ¬(200 ≤ s ∧ s < 300)) :
    (test_backend ⟨.ok s j, api⟩).success = false ∧
    (test_backend ⟨.ok s j, api⟩).requested = ["/health"] := by
  have hs : ¬(s = 200) := by rintro rfl; exact h ⟨le_refl _, by norm_num⟩
  simp [test_backend, hs]

theorem C2_witness :
    ¬((200:Nat) ≤ 500 ∧ (500:Nat) < 300) ∧
    (test_backend ⟨.ok 500 none, .connError⟩).success = false ∧
    (test_backend ⟨.ok 500 none, .connError⟩).requested = ["/health"] :=
  ⟨by decide, C2_non2xx_health_short_circuits 500 none .connError (by decide)⟩

/-- C3, counterexample: `fix_malformed_code` is not idempotent.  On
`"tpublic estpublic est"` (two overlapping occurrences of the
`tpublic\s+est` corruption) one pass yields `"testpublic est"` — the
replacement `test` ends in `t` and recreates the pattern at the junction,
which a single `re.sub` pass does not rescan — and a second pass changes
it again to `"testest"`. -/
theorem C3_counterexample :
    fix_malformed_code "tpublic estpublic est" = "testpublic est" ∧
    fix_malformed_code (fix_malformed_code "tpublic estpublic est")
      ≠ fix_malformed_code "tpublic estpublic est" := by
  constructor
  · decide
  · decide

/-- C3, amended: applying the transform twice equals applying it once for
every input in which none of the corruption patterns has a match (the
transform is the identity there); idempotence fails in general when
corrupted fragments overlap. -/
theorem C3_idempotent_on_clean (s : String) (h : anyPatternMatch s = false) :
    fix_malformed_code (fix_malformed_code s) = fix_malformed_code s := by
  rw [fix_id_of_clean s h]
  exact fix_id_of_clean s h

theorem C3_witness :
    anyPatternMatch "print(abc)" = false ∧
    fix_malformed_code (fix_malformed_code "print(abc)")
      = fix_malformed_code "print(abc)" :=
  ⟨by decide, C3_idempotent_on_clean "print(abc)" (by decide)⟩

/-- C4: on every input in which none of the table's corruption patterns
has a match, `fix_malformed_code` is the identity. -/
theorem C4_identity_on_clean (s : String) (h : anyPatternMatch s = false) :
    fix_malformed_code s = s := by
  exact fix_id_of_clean s h

theorem C4_witness :
    anyPatternMatch "hello world" = false ∧
    fix_malformed_code "hello world" = "hello world" :=
  ⟨by decide, C4_identity_on_clean "hello world" (by decide)⟩

/-- C5, counterexample: the claim says that for every input containing a
known corrupted fragment, the output contains no corruption marker
substring.  The input `"cpublic reate cpublic zzz"` contains the known
fragment `"cpublic reate"`, yet the output `"create cpublic zzz"` still
contains the marker `"cpublic "`: markers outside the fixed fragment list
survive. -/
theorem C5_counterexample :
    strContains "cpublic reate cpublic zzz" "cpublic reate" = true ∧
    fix_malformed_code "cpublic reate cpublic zzz" = "create cpublic zzz" ∧
    strContains (fix_malformed_code "cpublic reate cpublic zzz") "cpublic " = true := by
  refine ⟨by decide, by decide, by decide⟩

/-- C5, amended: each known corrupted fragment (both the bare split-keyword
form and the `func`/`var`/`let`-prefixed form) is rewritten by
`fix_malformed_code` to its corresponding corrected fragment, which
contains none of the corruption marker substrings; markers occurring
outside the known fragments may survive in the output. -/
theorem C5_known_fragments_fixed :
    (fragTable.all fun fr =>
      fix_malformed_code fr.1 == fr.2 &&
        markers.all fun m => !(strContains fr.2 m)) = true ∧
    (kwTable.all fun fr =>
      fix_malformed_code fr.1 == fr.2 &&
        markers.all fun m => !(strContains fr.2 m)) = true := by
  constructor
  · decide
  · decide

/-- C6: for a file whose content the transform changes, `process_file`
writes the original content to `<filepath>.bak` before overwriting the
file: if the overwrite raises, the backup still holds the original (only
the file itself holds partial data) and `process_file` returns `False`;
the backup is removed only after the overwrite succeeded. -/
theorem C6_backup_protects_original
    (fs : FS) (p : String) (b : FileBehavior) (content : String)
    (hc : fs p = some content) (hr : b.readFails = false)
    (hbw : b.backupWriteFails = false)
    (hch : fix_malformed_code content ≠ content) :
    (b.writeFails = true →
      (process_file fs p b).fs (bakPath p) = some content ∧
      (process_file fs p b).fs p = some b.partialContent ∧
      (process_file fs p b).ret = false) ∧
    (b.writeFails = false → b.removeFails = false →
      (process_file fs p b).fs (bakPath p) = none ∧
      (process_file fs p b).fs p = some (fix_malformed_code content) ∧
      (process_file fs p b).ret = true) := by
  have hne := bakPath_ne p
  constructor
  · intro hw
    simp [process_file, hc, hr, hch, hbw, hw, setFile, hne, Ne.symm hne]
  · intro hw hrm
    simp [process_file, hc, hr, hch, hbw, hw, hrm, setFile, hne, Ne.symm hne]

theorem C6_witness :
    fsOneBad "Sources/B.swift" = some "cpublic reate" ∧
    fix_malformed_code "cpublic reate" ≠ "cpublic reate" ∧
    ((process_file fsOneBad "Sources/B.swift" writeFailBehavior).fs
        (bakPath "Sources/B.swift") = some "cpublic reate" ∧
      (process_file fsOneBad "Sources/B.swift" writeFailBehavior).fs
        "Sources/B.swift" = some "PART" ∧
      (process_file fsOneBad "Sources/B.swift" writeFailBehavior).ret = false) :=
  ⟨rfl, by decide,
    (C6_backup_protects_original fsOneBad "Sources/B.swift" writeFailBehavior
      "cpublic reate" rfl rfl rfl (by decide)).1 rfl⟩

/-- C7: an exception while processing one file is caught inside
`process_file`, which prints an error line naming the file and returns
`False`; and the loop of `main` processes every file of the sequence
regardless of such failures. -/
theorem C7_exceptions_caught_processing_continues :
    (∀ (fs : FS) (p : String) (b : FileBehavior),
      procRaises fs p b = true →
      (process_file fs p b).ret = false ∧
      procErrLine p ∈ (process_file fs p b).out) ∧
    (∀ (fs : FS) (files : List (String × FileBehavior)),
      (runFiles fs files).trace.map Prod.fst = files.map Prod.fst) := by
  constructor
  · intro fs p b h
    cases hm : fs p with
    | none => simp [process_file, hm]
    | some content =>
        rw [procRaises, hm] at h
        obtain ⟨rf, bf, wf, rmf, pc⟩ := b
        cases rf <;> cases bf <;> cases wf <;> cases rmf <;>
          by_cases hid : fix_malformed_code content = content <;>
          simp_all [process_file, hm]
  · intro fs files
    induction files generalizing fs with
    | nil => rfl
    | cons pb rest ih =>
        obtain ⟨p, b⟩ := pb
        simp [runFiles, ih]

theorem C7_witness :
    procRaises fsOneBad "Sources/B.swift" writeFailBehavior = true ∧
    (process_file fsOneBad "Sources/B.swift" writeFailBehavior).ret = false ∧
    procErrLine "Sources/B.swift"
      ∈ (process_file fsOneBad "Sources/B.swift" writeFailBehavior).out :=
  ⟨by decide,
    (C7_exceptions_caught_processing_continues.1 fsOneBad "Sources/B.swift"
      writeFailBehavior (by decide)).1,
    (C7_exceptions_caught_processing_continues.1 fsOneBad "Sources/B.swift"
      writeFailBehavior (by decide)).2⟩

/-- C8: when a request raises a connection error, `test_backend` prints the
connection-specific remediation message with the start-up hint, returns
`False`, and the process exits 1; and the exit code is 0 exactly when
`test_backend` returns `True`. -/
theorem C8_connection_error_reported :
    (∀ b : Backend, b.health = .connError →
      (test_backend b).success = false ∧
      connMsg1 ∈ (test_backend b).output ∧
      connMsg2 ∈ (test_backend b).output ∧
      scriptB_exit b = 1) ∧
    (∀ r : String, (test_backend ⟨.ok 200 (some r), .connError⟩).success = false ∧
      connMsg1 ∈ (test_backend ⟨.ok 200 (some r), .connError⟩).output ∧
      connMsg2 ∈ (test_backend ⟨.ok 200 (some r), .connError⟩).output ∧
      scriptB_exit ⟨.ok 200 (some r), .connError⟩ = 1) ∧
    (∀ b : Backend, scriptB_exit b = 0 ↔ (test_backend b).success = true) := by
  refine ⟨?_, ?_, ?_⟩
  · rintro ⟨h, api⟩ rfl
    simp [test_backend, scriptB_exit]
  · intro r
    simp [test_backend, scriptB_exit]
  · intro b
    rcases h : (test_backend b).success <;> simp [scriptB_exit, h]

theorem C8_witness :
    (Backend.mk .connError .connError).health = .connError ∧
    ((test_backend ⟨.connError, .connError⟩).success = false ∧
      connMsg1 ∈ (test_backend ⟨.connError, .connError⟩).output ∧
      connMsg2 ∈ (test_backend ⟨.connError, .connError⟩).output ∧
      scriptB_exit ⟨.connError, .connError⟩ = 1) :=
  ⟨rfl, C8_connection_error_reported.1 ⟨.connError, .connError⟩ rfl⟩

/-- C9, counterexample: the claim says `main` exits 0 in every case where
the `Sources` directory exists.  In the world `wBadC9` the directory
exists, but one file's reads raise (e.g. bytes that do not decode as
UTF-8): `process_file` catches this, yet the final verification pass
re-reads the file outside any `try`, the exception escapes `main`, and the
process exits 1. -/
theorem C9_counterexample :
    wBadC9.sourcesDirExists = true ∧ (scriptA_main wBadC9).1 = 1 := by
  refine ⟨rfl, by decide⟩

/-- C9, amended: `main` exits 1 when the `Sources` directory is absent;
it exits 0 whenever the directory exists, every listed file is present and
readable, and no listed file is the backup path of another (as with
`glob("**/*.swift")`), regardless of per-file processing failures. -/
theorem C9_exit_codes (w : World) :
    (w.sourcesDirExists = false → (scriptA_main w).1 = 1) ∧
    (w.sourcesDirExists = true →
      (∀ pb ∈ w.files, (w.fs pb.1).isSome = true ∧ pb.2.readFails = false) →
      (∀ pb ∈ w.files, ∀ qb ∈ w.files, pb.1 ≠ bakPath qb.1) →
      (scriptA_main w).1 = 0) := by
  constructor
  · intro h
    simp [scriptA_main, h]
  · intro hdir hfiles hbak
    have hres : (rescan (runFiles w.fs w.files).fs w.files).isSome = true := by
      apply rescan_some
      intro pb hpb
      refine ⟨?_, (hfiles pb hpb).2⟩
      exact runFiles_keeps w.files w.fs pb.1 (hfiles pb hpb).1
        fun qb hq => hbak pb hpb qb hq
    rw [scriptA_main, hdir]
    cases hrs : rescan (runFiles w.fs w.files).fs w.files with
    | none => rw [hrs] at hres; simp at hres
    | some remaining =>
        simp only [Bool.true_eq_false, if_false, hrs]
        by_cases hre : remaining.isEmpty <;> simp [hre]

theorem C9_witness :
    wGoodC9.sourcesDirExists = true ∧ (scriptA_main wGoodC9).1 = 0 :=
  ⟨rfl, (C9_exit_codes wGoodC9).2 rfl (by decide) (by decide)⟩

/-- C10: when the transform leaves a file's content unchanged,
`process_file` performs no write at all — the file system is untouched, no
backup is created — and returns `False`; it returns `True` exactly when
the content changed and every step of the rewrite (backup write, overwrite,
backup removal) completed without raising. -/
theorem C10_no_write_when_unchanged
    (fs : FS) (p : String) (b : FileBehavior) (content : String)
    (hc : fs p = some content) (hr : b.readFails = false) :
    (fix_malformed_code content = content →
      process_file fs p b = ⟨fs, false, []⟩) ∧
    ((process_file fs p b).ret = true ↔
      (fix_malformed_code content ≠ content ∧ b.backupWriteFails = false ∧
        b.writeFails = false ∧ b.removeFails = false)) := by
  constructor
  · intro hid
    simp [process_file, hc, hr, hid]
  · obtain ⟨rf, bf, wf, rmf, pc⟩ := b
    cases rf <;> cases bf <;> cases wf <;> cases rmf <;>
      by_cases hid : fix_malformed_code content = content <;>
      simp_all [process_file, hc]

theorem C10_witness :
    fsOneClean "Sources/C.swift" = some "hello world" ∧
    fix_malformed_code "hello world" = "hello world" ∧
    process_file fsOneClean "Sources/C.swift" okBehavior = ⟨fsOneClean, false, []⟩ :=
  ⟨rfl, by decide,
    (C10_no_write_when_unchanged fsOneClean "Sources/C.swift" okBehavior
      "hello world" rfl rfl).1 (by decide)⟩

end Shannon
